import Mathlib

/-!
Verification of the EMV card-reading sources (applicationhelper.cc, ccinfo.cc)
against their natural-language specification.

Shallow embedding conventions:
- byte buffers are `List Nat`, each element intended to be < 256; stores of
  wider values into a byte location are modelled with an explicit `% 256`;
- out-of-bounds reads through raw pointers (the tolerant scans index past the
  end of the receive buffer, which in C reads adjacent memory of the
  `MAX_FRAME_LEN`-sized static array) are modelled as reading 0, via
  `List.getD _ _ 0`;
- the physical transport (`pn53x_transceive`) is a parameter: the received
  length `szRx : Int` (negative means transport error) and the receive buffer
  `abtRx : List Nat`, with the side condition `abtRx.length = szRx.toNat`
  stated as a hypothesis where a theorem needs it.
-/

namespace NFC

/-- Embedding of `ApplicationHelper::checkTrailer` (applicationhelper.cc:43-51):
returns `true` on a BAD trailer.  If fewer than 2 bytes were received it
reports failure; otherwise it reports success exactly when the last two
received bytes are `0x90 0x00`. -/
def checkTrailer (szRx : Int) (abtRx : List Nat) : Bool :=
  if szRx < 2 then true
  else if abtRx.getD (szRx - 2).toNat 0 == 0x90 && abtRx.getD (szRx - 1).toNat 0 == 0 then false
  else true

/-- Embedding of `ApplicationHelper::executeCommand` (applicationhelper.cc:141-163),
as a function of the transport outcome.  On a negative transport result or a
failed trailer check it returns the empty payload `{0, {0}}`; otherwise it
returns `szRx - 1` bytes copied from `abtRx + 1`, i.e. the reply with its
FIRST byte removed (the trailing status bytes are kept). -/
def executeCommand (szRx : Int) (abtRx : List Nat) : List Nat :=
  if szRx < 0 || checkTrailer szRx abtRx then []
  else (abtRx.drop 1).take (szRx.toNat - 1)

/-- The payload the spec describes for a successful exchange: the reply with
the two trailing status bytes removed. -/
def spec_strippedReply (abtRx : List Nat) : List Nat :=
  abtRx.take (abtRx.length - 2)

/-- Helper: a list with at least two entries equals everything before its last
two entries followed by exactly those two entries. -/
theorem drop_length_sub_two (l : List Nat) (h : 2 ≤ l.length) :
    l.drop (l.length - 2) = [l.getD (l.length - 2) 0, l.getD (l.length - 1) 0] := by
  have h2 : l.length - 2 < l.length := by omega
  have h1 : l.length - 1 < l.length := by omega
  apply List.ext_getElem
  · simp
    omega
  · intro i hi1 hi2
    rw [List.getElem_drop]
    simp only [List.length_cons, List.length_singleton] at hi2
    match i, hi2 with
    | 0, _ =>
      show l[l.length - 2] = l.getD (l.length - 2) 0
      rw [List.getD_eq_getElem l 0 h2]
    | 1, _ =>
      show l[l.length - 2 + 1] = l.getD (l.length - 1) 0
      simp only [show l.length - 2 + 1 = l.length - 1 from by omega]
      rw [List.getD_eq_getElem l 0 h1]

/-- C2: a negative transport result, or a reply that does not end with the
status bytes `0x90 0x00`, makes `executeCommand` return the empty payload,
regardless of the bytes preceding the trailer. -/
theorem executeCommand_failure_empty (szRx : Int) (abtRx : List Nat)
    (hlen : abtRx.length = szRx.toNat)
    (h : szRx < 0 ∨ abtRx.drop (abtRx.length - 2) ≠ [0x90, 0x00]) :
    executeCommand szRx abtRx = [] := by
  rcases h with h | h
  · unfold executeCommand
    simp [h]
  · unfold executeCommand
    by_cases h2 : szRx < 2
    · have ct : checkTrailer szRx abtRx = true := by
        unfold checkTrailer
        rw [if_pos h2]
      simp [ct]
    · have h2n : 2 ≤ abtRx.length := by omega
      have ha : (szRx - 2).toNat = abtRx.length - 2 := by omega
      have hb : (szRx - 1).toNat = abtRx.length - 1 := by omega
      have ct : checkTrailer szRx abtRx = true := by
        unfold checkTrailer
        rw [if_neg h2]
        cases hc : (abtRx.getD (szRx - 2).toNat 0 == 0x90 && abtRx.getD (szRx - 1).toNat 0 == 0) with
        | false => simp
        | true =>
          exfalso
          apply h
          rw [drop_length_sub_two _ h2n]
          simp only [Bool.and_eq_true, beq_iff_eq] at hc
          rw [← ha, ← hb, hc.1, hc.2]
      simp [ct]

/-- C2 witness: a concrete reply `[1, 2, 3]` (length 3, non-negative transport
result) whose trailer is not `0x90 0x00` yields the empty payload. -/
theorem executeCommand_failure_empty_witness :
    executeCommand 3 [1, 2, 3] = [] :=
  executeCommand_failure_empty 3 [1, 2, 3] (by decide) (Or.inr (by decide))

/-- C10: a reply shorter than 2 bytes with a non-negative transport result is
treated as a failed trailer check, and `executeCommand` returns the empty
payload, the same outcome as a wrong status trailer. -/
theorem executeCommand_short_reply_empty (szRx : Int) (abtRx : List Nat)
    (h0 : 0 ≤ szRx) (h2 : szRx < 2) :
    checkTrailer szRx abtRx = true ∧ executeCommand szRx abtRx = [] := by
  have ct : checkTrailer szRx abtRx = true := by
    unfold checkTrailer
    rw [if_pos h2]
  refine ⟨ct, ?_⟩
  unfold executeCommand
  simp [ct]

/-- C10 witness: a one-byte reply with a non-negative transport result fails
the trailer check and yields the empty payload. -/
theorem executeCommand_short_reply_empty_witness :
    checkTrailer 1 [0x90] = true ∧ executeCommand 1 [0x90] = [] :=
  executeCommand_short_reply_empty 1 [0x90] (by decide) (by decide)

/-- C1 counterexample: for the reply `[0x00, 0xAB, 0x90, 0x00]` with a
non-negative transport result (4 bytes) and a correct `0x90 0x00` trailer, the
returned payload is NOT the reply with its two trailing status bytes removed:
`executeCommand` instead removes the first byte and keeps the trailer. -/
theorem executeCommand_strip_counterexample :
    (0 : Int) ≤ 4 ∧ checkTrailer 4 [0x00, 0xAB, 0x90, 0x00] = false ∧
    executeCommand 4 [0x00, 0xAB, 0x90, 0x00] ≠ spec_strippedReply [0x00, 0xAB, 0x90, 0x00] := by
  refine ⟨by decide, by decide, by decide⟩

/-- C1 amended: on a successful exchange (non-negative transport result and a
passing trailer check), `executeCommand` returns the reply with its FIRST byte
removed; this is never the trailer-stripped reply, and for replies of at least
3 bytes the returned payload still ends with the two status bytes
`0x90 0x00`. -/
theorem executeCommand_success_payload (szRx : Int) (abtRx : List Nat)
    (hlen : abtRx.length = szRx.toNat) (h0 : 0 ≤ szRx)
    (hok : checkTrailer szRx abtRx = false) :
    executeCommand szRx abtRx = abtRx.drop 1 ∧
    executeCommand szRx abtRx ≠ spec_strippedReply abtRx ∧
    (3 ≤ szRx → (executeCommand szRx abtRx).drop (szRx.toNat - 3) = [0x90, 0x00]) := by
  have h2 : ¬ szRx < 2 := by
    intro hlt
    unfold checkTrailer at hok
    rw [if_pos hlt] at hok
    exact Bool.noConfusion hok
  have h2n : 2 ≤ abtRx.length := by omega
  have ha : (szRx - 2).toNat = abtRx.length - 2 := by omega
  have hb : (szRx - 1).toNat = abtRx.length - 1 := by omega
  have hbytes : abtRx.getD (abtRx.length - 2) 0 = 0x90 ∧ abtRx.getD (abtRx.length - 1) 0 = 0 := by
    unfold checkTrailer at hok
    rw [if_neg h2] at hok
    cases hc : (abtRx.getD (szRx - 2).toNat 0 == 0x90 && abtRx.getD (szRx - 1).toNat 0 == 0) with
    | false =>
      rw [hc] at hok
      simp at hok
    | true =>
      simp only [Bool.and_eq_true, beq_iff_eq] at hc
      rw [← ha, ← hb]
      exact hc
  have e1 : executeCommand szRx abtRx = abtRx.drop 1 := by
    unfold executeCommand
    have hcond : (decide (szRx < 0) || checkTrailer szRx abtRx) = false := by
      simp [hok]
      omega
    rw [if_neg (by simp [hcond])]
    apply List.take_of_length_le
    simp
    omega
  refine ⟨e1, ?_, ?_⟩
  · intro heq
    have hl := congrArg List.length heq
    rw [e1] at hl
    simp [spec_strippedReply] at hl
    omega
  · intro h3
    rw [e1, List.drop_drop]
    have : 1 + (szRx.toNat - 3) = abtRx.length - 2 := by omega
    rw [this, drop_length_sub_two _ h2n, hbytes.1, hbytes.2]

/-- C1 amended witness: the concrete successful exchange
`szRx = 4`, reply `[0x00, 0xAB, 0x90, 0x00]` returns `[0xAB, 0x90, 0x00]`,
which differs from the trailer-stripped reply and ends with `0x90 0x00`. -/
theorem executeCommand_success_payload_witness :
    executeCommand 4 [0x00, 0xAB, 0x90, 0x00] = [0xAB, 0x90, 0x00] ∧
    executeCommand 4 [0x00, 0xAB, 0x90, 0x00] ≠ spec_strippedReply [0x00, 0xAB, 0x90, 0x00] ∧
    (executeCommand 4 [0x00, 0xAB, 0x90, 0x00]).drop 1 = [0x90, 0x00] := by
  have h := executeCommand_success_payload 4 [0x00, 0xAB, 0x90, 0x00]
    (by decide) (by decide) (by decide)
  refine ⟨by rw [h.1]; decide, h.2.1, ?_⟩
  have h3 := h.2.2 (by decide)
  simpa using h3

/-- Bytes whose appearance as the first tag byte of a PDOL entry signal a
two-byte tag (ccinfo.cc:365-366). -/
def twoByteTagStart (b : Nat) : Bool :=
  b == 0x5F || b == 0x9F || b == 0xBF

/-- Embedding of the tag-list parsing loop of `CCInfo::getProcessingOptions`
(ccinfo.cc:362-376).  Each iteration reads a one- or two-byte tag and then one
length byte, consuming 2 or 3 descriptor bytes; the loop only re-checks the
bound at the top, so reads past the end of the descriptor (modelled as 0) can
occur for truncated descriptors, which the two short cases mirror. -/
def parsePDOL : List Nat → List (Nat × Nat)
  | [] => []
  | [t] => if twoByteTagStart t then [(t <<< 8, 0)] else [(t, 0)]
  | [t, b1] => if twoByteTagStart t then [((t <<< 8) ||| b1, 0)] else [(t, b1)]
  | t :: b1 :: b2 :: rest =>
    if twoByteTagStart t then ((t <<< 8) ||| b1, b2) :: parsePDOL rest
    else (t, b1) :: parsePDOL (b2 :: rest)

/-- Running total of the declared lengths (`pdol_response_len`,
ccinfo.cc:354,374). -/
def pdolResponseLen (pdol : List Nat) : Nat :=
  ((parsePDOL pdol).map Prod.snd).sum

/-- Embedding of the static substitution table `CCInfo::PDOLValues`
(ccinfo.cc:410-422); `none` models a tag absent from the map, for which the
`at` lookup in the C++ source throws. -/
def PDOLValues : Nat → Option (List Nat)
  | 0x9F59 => some [0xC8, 0x80, 0x00]
  | 0x9F5A => some [0x00]
  | 0x9F58 => some [0x01]
  | 0x9F66 => some [0xB6, 0x20, 0xC0, 0x00]
  | 0x9F02 => some [0x00, 0x00, 0x10, 0x00, 0x00, 0x00]
  | 0x9F03 => some [0x00, 0x00, 0x00, 0x00, 0x00, 0x00]
  | 0x9F1A => some [0x01, 0x24]
  | 0x5F2A => some [0x01, 0x24]
  | 0x95 => some [0x00, 0x00, 0x00, 0x00, 0x00]
  | 0x9A => some [0x15, 0x01, 0x01]
  | 0x9C => some [0x00]
  | 0x9F37 => some [0x82, 0x3D, 0xDE, 0x7A]
  | _ => none

/-- Bytes emitted for one PDOL entry: `memcpy` of the DECLARED length `len`
from the substitution value (ccinfo.cc:388); bytes past the end of the stored
value are modelled as 0. -/
def substBytes (v : List Nat) (len : Nat) : List Nat :=
  (List.range len).map (fun k => v.getD k 0)

/-- Embedding of the value-emission loop (ccinfo.cc:387-390); `none` when some
tag has no substitution value. -/
def emitValues : List (Nat × Nat) → Option (List Nat)
  | [] => some []
  | (tag, len) :: rest =>
    match PDOLValues tag, emitValues rest with
    | some v, some vs => some (substBytes v len ++ vs)
    | _, _ => none

/-- Embedding of the GPO command construction of `CCInfo::getProcessingOptions`
(ccinfo.cc:378-392): fixed header, `Lc = pdolResponseLen + 2`, constructor tag
`0x83`, the total length, the substitution values in descriptor order, then a
trailing 0 (`Le`); stores of `size_t` totals into `byte_t` cells truncate
mod 256. -/
def gpoCommand (header pdol : List Nat) : Option (List Nat) :=
  (emitValues (parsePDOL pdol)).map
    (fun vals =>
      header ++ [(pdolResponseLen pdol + 2) % 256, 0x83, pdolResponseLen pdol % 256]
        ++ vals ++ [0])

/-- C3: for the PDOL descriptor `[0x9F, 0x02, 6]` the builder computes
`pdolResponseLen = 6` and emits, after the fixed header, `Lc = 8`, the
constructor tag `0x83`, the length byte 6, the canned 6-byte value for tag
`0x9F02`, then a trailing 0.  In general, a first tag byte of `0x5F`, `0x9F`
or `0xBF` is read as a two-byte big-endian tag, and the substitution values
are emitted in the descriptor-list order (concatenation of the per-tag values
over the parsed list). -/
theorem gpo_builder_spec :
    pdolResponseLen [0x9F, 0x02, 6] = 6 ∧
    (∀ header : List Nat,
      gpoCommand header [0x9F, 0x02, 6] =
        some (header ++ [8, 0x83, 6] ++ [0x00, 0x00, 0x10, 0x00, 0x00, 0x00] ++ [0])) ∧
    (∀ t b1 b2 rest, twoByteTagStart t = true →
      parsePDOL (t :: b1 :: b2 :: rest) = ((t <<< 8) ||| b1, b2) :: parsePDOL rest) ∧
    (∀ tags : List (Nat × Nat),
      (∀ p ∈ tags, (PDOLValues p.1).isSome) →
      emitValues tags =
        some ((tags.map (fun p => substBytes ((PDOLValues p.1).getD []) p.2)).flatten)) := by
  refine ⟨by decide, fun header => rfl, ?_, ?_⟩
  · intro t b1 b2 rest h
    rw [parsePDOL.eq_def]
    simp [h]
  · intro tags h
    induction tags with
    | nil => rfl
    | cons p rest ih =>
      obtain ⟨v, hv⟩ := Option.isSome_iff_exists.mp (h p (by simp))
      have hrest := ih (fun q hq => h q (by simp [hq]))
      obtain ⟨tag, len⟩ := p
      simp only [emitValues, hrest, List.map_cons, List.flatten]
      rw [hv]
      simp [hv]

/-- C3 witness: the general two-byte-tag and order-preservation parts applied
at the concrete descriptor entry `0x9F 0x02` with length 6. -/
theorem gpo_builder_spec_witness :
    parsePDOL [0x9F, 0x02, 6] = [(0x9F02, 6)] ∧
    emitValues [(0x9F02, 6)] = some [0x00, 0x00, 0x10, 0x00, 0x00, 0x00] := by
  have h2 := gpo_builder_spec.2.2.1 0x9F 0x02 6 [] (by decide)
  have h3 := gpo_builder_spec.2.2.2 [(0x9F02, 6)] (by decide)
  constructor
  · rw [h2]
    decide
  · rw [h3]
    decide

/-- Read `len` bytes starting at offset `j` of a buffer; reads past the end
are modelled as 0 (the C `memcpy` would read adjacent static memory). -/
def slice (buf : List Nat) (j len : Nat) : List Nat :=
  (List.range len).map (fun k => buf.getD (j + k) 0)

/-- Fields of the `CCInfo` aggregate touched by `extractBaseRecords`; a field
holding the empty list models a field whose `size` member is 0. -/
structure CCState where
  track2EquivalentData : List Nat
  cardholderName : List Nat
  track1DiscretionaryData : List Nat
  deriving Repr, DecidableEq

/-- Embedding of the per-record TLV scan of `CCInfo::extractBaseRecords`
(ccinfo.cc:143-166), with the loop index `i` and a fuel bound on the number
of iterations (the index strictly increases, so `buf.length` iterations
always suffice).  Track-2-equivalent data (tag `0x57`) and track-1
discretionary data (tag `0x9F 0x1F`) are decoded only while the stored field
is still empty; the cardholder name (tag `0x5F 0x20`) is stored only when its
length exceeds 2.  When a branch is not taken, the bytes of its tag, length
and payload are rescanned one by one. -/
def extractScan (buf : List Nat) : Nat → Nat → CCState → CCState
  | 0, _, s => s
  | fuel + 1, i, s =>
    if i < buf.length then
      if buf.getD i 0 = 0x57 ∧ s.track2EquivalentData = [] then
        let len := buf.getD (i + 1) 0
        extractScan buf fuel (i + 2 + len)
          { s with track2EquivalentData := slice buf (i + 2) len }
      else if i + 1 < buf.length ∧ buf.getD i 0 = 0x5F ∧ buf.getD (i + 1) 0 = 0x20 then
        let len := buf.getD (i + 2) 0
        extractScan buf fuel (i + 3 + len)
          (if len > 2 then { s with cardholderName := slice buf (i + 3) len } else s)
      else if i + 1 < buf.length ∧ s.track1DiscretionaryData = [] ∧
          buf.getD i 0 = 0x9F ∧ buf.getD (i + 1) 0 = 0x1F then
        let len := buf.getD (i + 2) 0
        extractScan buf fuel (i + 3 + len)
          { s with track1DiscretionaryData := slice buf (i + 3) len }
      else extractScan buf fuel (i + 1) s
    else s

/-- Processing of one record response by `CCInfo::extractBaseRecords`: the
scan started at index 0 with enough fuel for the whole buffer. -/
def extractBaseRecord (s : CCState) (buf : List Nat) : CCState :=
  extractScan buf buf.length 0 s

/-- Helper: the scan never modifies a non-empty track-2-equivalent field. -/
theorem track2_preserved (buf : List Nat) (fuel : Nat) :
    ∀ i s, s.track2EquivalentData ≠ [] →
      (extractScan buf fuel i s).track2EquivalentData = s.track2EquivalentData := by
  induction fuel with
  | zero => intro i s _; rfl
  | succ n ih =>
    intro i s h2
    simp only [extractScan]
    split_ifs with hlt hA hB hC hD
    · exact absurd hA.2 h2
    · exact ih _ _ h2
    · exact ih _ _ h2
    · exact ih _ _ h2
    · exact ih _ _ h2
    · rfl

/-- Helper: the scan never modifies a non-empty track-1-discretionary field. -/
theorem track1_preserved (buf : List Nat) (fuel : Nat) :
    ∀ i s, s.track1DiscretionaryData ≠ [] →
      (extractScan buf fuel i s).track1DiscretionaryData = s.track1DiscretionaryData := by
  induction fuel with
  | zero => intro i s _; rfl
  | succ n ih =>
    intro i s h1
    simp only [extractScan]
    split_ifs with hlt hA hB hC hD
    · exact ih _ _ h1
    · exact ih _ _ h1
    · exact ih _ _ h1
    · exact absurd hD.2.1 h1
    · exact ih _ _ h1
    · rfl

/-- C4 counterexample: extracting the record response
`57 04 9F 1F 01 AA` twice does NOT leave the same stored values as extracting
it once.  The first pass stores the track-2 payload `9F 1F 01 AA` and leaves
track-1 empty; on the second pass the track-2 tag is skipped one byte at a
time because the field is already set, so the `9F 1F` bytes INSIDE its stored
payload are decoded as a track-1-discretionary tag, setting that field to
`[0xAA]`. -/
theorem extract_idempotence_counterexample :
    (extractBaseRecord (extractBaseRecord ⟨[], [], []⟩ [0x57, 4, 0x9F, 0x1F, 1, 0xAA])
        [0x57, 4, 0x9F, 0x1F, 1, 0xAA]) ≠
      extractBaseRecord ⟨[], [], []⟩ [0x57, 4, 0x9F, 0x1F, 1, 0xAA] ∧
    (extractBaseRecord ⟨[], [], []⟩ [0x57, 4, 0x9F, 0x1F, 1, 0xAA]).track1DiscretionaryData
        = [] ∧
    (extractBaseRecord (extractBaseRecord ⟨[], [], []⟩ [0x57, 4, 0x9F, 0x1F, 1, 0xAA])
        [0x57, 4, 0x9F, 0x1F, 1, 0xAA]).track1DiscretionaryData = [0xAA] := by
  refine ⟨by decide, by decide, by decide⟩

/-- C4 amended: once the stored track-2-equivalent field (tag `0x57`) or the
track-1-discretionary field (tag `0x9F 0x1F`) is non-empty, no later scan
step overwrites it — in particular a second extraction of the same buffer
leaves every field that the first extraction set unchanged.  (Full
idempotence of re-extraction fails: a field still empty after the first pass
can be populated by the second, see the counterexample.) -/
theorem extract_first_wins (buf : List Nat) (fuel i : Nat) (s : CCState) :
    (s.track2EquivalentData ≠ [] →
      (extractScan buf fuel i s).track2EquivalentData = s.track2EquivalentData) ∧
    (s.track1DiscretionaryData ≠ [] →
      (extractScan buf fuel i s).track1DiscretionaryData = s.track1DiscretionaryData) ∧
    ((extractBaseRecord s buf).track2EquivalentData ≠ [] →
      (extractBaseRecord (extractBaseRecord s buf) buf).track2EquivalentData =
        (extractBaseRecord s buf).track2EquivalentData) ∧
    ((extractBaseRecord s buf).track1DiscretionaryData ≠ [] →
      (extractBaseRecord (extractBaseRecord s buf) buf).track1DiscretionaryData =
        (extractBaseRecord s buf).track1DiscretionaryData) :=
  ⟨track2_preserved buf fuel i s, track1_preserved buf fuel i s,
   track2_preserved buf buf.length 0 _, track1_preserved buf buf.length 0 _⟩

/-- C4 amended witness: starting from a state whose track-2 and track-1
fields are already set, scanning a buffer that contains both tags again
leaves both fields unchanged, and so does a double extraction. -/
theorem extract_first_wins_witness :
    (extractScan [0x57, 1, 0xBB, 0x9F, 0x1F, 1, 0xCC] 7 0 ⟨[0x11], [], [0x22]⟩).track2EquivalentData
        = [0x11] ∧
    (extractScan [0x57, 1, 0xBB, 0x9F, 0x1F, 1, 0xCC] 7 0 ⟨[0x11], [], [0x22]⟩).track1DiscretionaryData
        = [0x22] ∧
    (extractBaseRecord (extractBaseRecord ⟨[0x11], [], [0x22]⟩ [0x57, 1, 0xBB, 0x9F, 0x1F, 1, 0xCC])
        [0x57, 1, 0xBB, 0x9F, 0x1F, 1, 0xCC]).track2EquivalentData = [0x11] := by
  have h := extract_first_wins [0x57, 1, 0xBB, 0x9F, 0x1F, 1, 0xCC] 7 0 ⟨[0x11], [], [0x22]⟩
  refine ⟨h.1 (by decide), h.2.1 (by decide), ?_⟩
  have h3 := h.2.2.1 (by decide)
  rw [h3]
  decide

/-- Output atoms of the paylog renderer: a byte rendered by the `HEX` macro,
or the literal decimal point.  Modelling the output as a token list keeps the
claims about WHAT is printed and in WHICH order independent of the exact hex
formatting. -/
inductive OutTok where
  | hex (b : Nat)
  | dot
  deriving Repr, DecidableEq

/-- Embedding of the amount-rendering loop of `CCInfo::printPaylog` for format
tag `0x9F02` (ccinfo.cc:286-306).  `data` is the run of entry bytes at the
current entry cursor, `rem` the remaining iterations (starting at the format
length `len`), `j` the loop counter and `e` the cursor offset; `flagZero`
suppresses leading zero bytes among the first 4.  The decimal point is
printed by `if (j == 4) std::cout << "."` AFTER the byte of iteration
`j = 4`. -/
def amountLoop (data : List Nat) : Nat → Nat → Nat → Bool → List OutTok
  | 0, _, _, _ => []
  | rem + 1, j, e, flagZero =>
    if j < 4 ∧ flagZero ∧ data.getD e 0 = 0 then
      amountLoop data rem (j + 1) (e + 1) flagZero
    else
      OutTok.hex (data.getD e 0) ::
        ((if j = 4 then [OutTok.dot] else []) ++ amountLoop data rem (j + 1) (e + 1) false)

/-- Tokens printed for one amount field of declared length `len`. -/
def amountTokens (len : Nat) (data : List Nat) : List OutTok :=
  amountLoop data len 0 0 true

/-- The amount rendering the claim describes: zero bytes suppressed among the
first four, then the decimal point BEFORE the rendering of the 5th byte. -/
def spec_amountTokens (b : List Nat) : List OutTok :=
  ((List.dropWhile (fun x => decide (x = 0)) (b.take 4)).map OutTok.hex)
    ++ [OutTok.dot, OutTok.hex (b.getD 4 0), OutTok.hex (b.getD 5 0)]

/-- C5 counterexample: for the 6-byte amount value `00 00 10 00 05 06` the
code renders `10 00 05 . 06` — the decimal point comes AFTER the 5th byte of
the value, not before it as the claim (and the comment in the source) says.
(The source comment says the first 4 bytes precede the comma and the 5th byte
follows it, but the printed point trails the `j = 4` byte.) -/
theorem amount_point_counterexample :
    amountTokens 6 [0x00, 0x00, 0x10, 0x00, 0x05, 0x06] =
      [OutTok.hex 0x10, OutTok.hex 0x00, OutTok.hex 0x05, OutTok.dot, OutTok.hex 0x06] ∧
    amountTokens 6 [0x00, 0x00, 0x10, 0x00, 0x05, 0x06] ≠
      spec_amountTokens [0x00, 0x00, 0x10, 0x00, 0x05, 0x06] := by
  refine ⟨by decide, by decide⟩

/-- C5 amended: for a 6-byte amount value, leading all-zero bytes among the
first 4 are suppressed and the decimal point is inserted AFTER the 5th byte's
rendering (before the 6th byte), i.e. the output is the non-zero-prefixed
renders of the first four bytes, then the 5th byte, then the point, then the
6th byte. -/
theorem amount_render (b0 b1 b2 b3 b4 b5 : Nat) :
    amountTokens 6 [b0, b1, b2, b3, b4, b5] =
      ((List.dropWhile (fun x => decide (x = 0)) [b0, b1, b2, b3]).map OutTok.hex)
        ++ [OutTok.hex b4, OutTok.dot, OutTok.hex b5] := by
  unfold amountTokens
  by_cases h0 : b0 = 0 <;> by_cases h1 : b1 = 0 <;> by_cases h2 : b2 = 0 <;> by_cases h3 : b3 = 0 <;>
    simp [amountLoop, h0, h1, h2, h3, List.dropWhile]

/-- Modelled from the spec: the `HEX` byte formatter lives in `tools.hh`,
which is not among the provided sources.  The spec renders one byte as
exactly two hexadecimal digits (PAN bytes such as `12 34`, expiry `06/2015`),
so a nibble maps to one digit character. -/
def hexDigit (n : Nat) : Char :=
  if n < 10 then Char.ofNat (48 + n) else Char.ofNat (55 + n)

/-- Modelled from the spec: two-hex-digit rendering of one byte. -/
def hex2 (b : Nat) : String :=
  String.mk [hexDigit (b / 16 % 16), hexDigit (b % 16)]

/-- Embedding of the PAN loop of `CCInfo::printTracksInfo` (ccinfo.cc:211-215):
the first 8 bytes of the track-2-equivalent payload, with a space printed
after every odd-indexed byte. -/
def panString (buf : List Nat) : String :=
  String.join ((List.range 8).map
    (fun i => hex2 (buf.getD i 0) ++ (if i % 2 = 1 then " " else "")))

/-- Embedding of the expiry-year computation (ccinfo.cc:221-222): the low
nibble of byte 8 joined with the high nibble of byte 9, through `byte_t`
truncation of the shifted value. -/
def expiryYear (buf : List Nat) : Nat :=
  ((buf.getD 8 0 <<< 4) % 256 ||| buf.getD 9 0 >>> 4) % 256

/-- Embedding of the expiry-month computation (ccinfo.cc:223-224): the low
nibble of byte 9 joined with the high nibble of byte 10. -/
def expiryMonth (buf : List Nat) : Nat :=
  ((buf.getD 9 0 <<< 4) % 256 ||| buf.getD 10 0 >>> 4) % 256

/-- Embedding of the expiry-date output line (ccinfo.cc:226): the month, the
literal `/20` century prefix, then the two-digit year. -/
def expiryString (buf : List Nat) : String :=
  hex2 (expiryMonth buf) ++ "/20" ++ hex2 (expiryYear buf)

/-- C6: for a track-2-equivalent payload whose first 8 bytes are
`12 34 56 78 90 12 34 56`, followed by the separator nibble `D`, the year
nibbles `1` `5` and the month nibbles `0` `6` (bytes `D1 50 65`), the PAN
renders as the 8 bytes in space-separated byte pairs and the expiry renders
as `06/2015`, the month and year each being assembled from nibbles that cross
byte boundaries. -/
theorem track2_render_spec :
    panString [0x12, 0x34, 0x56, 0x78, 0x90, 0x12, 0x34, 0x56, 0xD1, 0x50, 0x65]
        = "1234 5678 9012 3456 " ∧
    expiryMonth [0x12, 0x34, 0x56, 0x78, 0x90, 0x12, 0x34, 0x56, 0xD1, 0x50, 0x65] = 0x06 ∧
    expiryYear [0x12, 0x34, 0x56, 0x78, 0x90, 0x12, 0x34, 0x56, 0xD1, 0x50, 0x65] = 0x15 ∧
    expiryString [0x12, 0x34, 0x56, 0x78, 0x90, 0x12, 0x34, 0x56, 0xD1, 0x50, 0x65]
        = "06/2015" := by
  refine ⟨by decide, by decide, by decide, by decide⟩

/-- Modelled from the spec: the `Application` record is declared in
`applicationhelper.hh`, which is not among the provided sources; per the spec
it holds a 7-byte identifier, a display name and a priority, and an unset
application is zero-valued. -/
structure Application where
  aid : List Nat
  name : List Nat
  priority : Nat
  deriving Repr, DecidableEq

/-- Modelled from the spec: the zero-valued application (`Application app;`
before any field is written). -/
def defaultApp : Application :=
  ⟨List.replicate 7 0, [], 0⟩

/-- Write `len` bytes from the buffer at offset `j` over the front of the
7-byte identifier array (applicationhelper.cc:78); bytes beyond the 7-byte
capacity would overflow the array in C and are dropped here, and positions
not written keep the previous content. -/
def writeAid (old buf : List Nat) (j len : Nat) : List Nat :=
  (slice buf j len ++ old.drop len).take 7

/-- Embedding of the template-body loop of `ApplicationHelper::getAll`
(applicationhelper.cc:70-96).  The three tag checks are SEQUENTIAL `if`
statements with an unconditional `++i` between the `0x87` check and the
`0x50` check, exactly as in the source; after decoding an identifier the
index rests on the LAST identifier byte, which is the byte the `0x87` check
then examines.  Returns the updated application and the index at which the
loop stopped (end of buffer or next `0x61`). -/
def innerScan (buf : List Nat) : Nat → Nat → Application → Application × Nat
  | 0, i, app => (app, i)
  | fuel + 1, i, app =>
    if i < buf.length ∧ buf.getD i 0 ≠ 0x61 then
      let s1 : Nat × Application :=
        if buf.getD i 0 = 0x4F then
          let len := buf.getD (i + 1) 0
          (i + 1 + len, { app with aid := writeAid app.aid buf (i + 2) len })
        else (i, app)
      let s2 : Nat × Application :=
        if buf.getD s1.1 0 = 0x87 then
          (s1.1 + 2, { s1.2 with priority := buf.getD (s1.1 + 2) 0 })
        else s1
      let i3 := s2.1 + 1
      let s4 : Nat × Application :=
        if buf.getD i3 0 = 0x50 then
          let len := buf.getD (i3 + 1) 0
          (i3 + 1 + len, { s2.2 with name := slice buf (i3 + 2) len })
        else (i3, s2.2)
      innerScan buf fuel s4.1 s4.2
    else (app, i)

/-- Embedding of the outer template loop of `ApplicationHelper::getAll`
(applicationhelper.cc:66-100): each `0x61` met at the scan position opens a
template parsed by `innerScan`; after appending the application, the `--i`
followed by the `for` increment resumes the scan exactly where the inner
loop stopped.  The scan index strictly increases every iteration, so
`buf.length + 1` fuel always suffices. -/
def outerScan (buf : List Nat) : Nat → Nat → List Application
  | 0, _ => []
  | fuel + 1, i =>
    if i < buf.length then
      if buf.getD i 0 = 0x61 then
        let r := innerScan buf (buf.length + 1) (i + 1) defaultApp
        r.1 :: outerScan buf fuel r.2
      else outerScan buf fuel (i + 1)
    else []

/-- The template scan of `getAll` over the RAW receive buffer (the source
iterates over `abtRx` from index 0, not over the returned payload). -/
def getAllScan (buf : List Nat) : List Application :=
  outerScan buf (buf.length + 1) 0

/-- Embedding of `ApplicationHelper::getAll` (applicationhelper.cc:53-103):
an empty payload from the SELECT PPSE exchange returns the empty list;
otherwise the raw receive buffer is scanned for `0x61` templates. -/
def getAll (szRx : Int) (abtRx : List Nat) : List Application :=
  if executeCommand szRx abtRx = [] then [] else getAllScan abtRx

/-- Helper: a buffer without any `0x61` byte produces no application,
wherever the scan starts and whatever fuel remains. -/
theorem outerScan_no_template (buf : List Nat) (h : (0x61 : Nat) ∉ buf) :
    ∀ fuel i, outerScan buf fuel i = [] := by
  intro fuel
  induction fuel with
  | zero => intro i; rfl
  | succ n ih =>
    intro i
    simp only [outerScan]
    split_ifs with hlt h61
    · exfalso
      apply h
      rw [← h61, List.getD_eq_getElem buf 0 hlt]
      exact List.getElem_mem hlt
    · exact ih (i + 1)
    · rfl

/-- C7 counterexample: for the raw reply `61 05 90 00` (non-negative
transport result, correct trailer) the returned payload `05 90 00` is
non-empty and contains no `0x61`, yet discovery is NOT empty: the scan also
examines the first raw byte, which here is `0x61`. -/
theorem getAll_payload_counterexample :
    executeCommand 4 [0x61, 0x05, 0x90, 0x00] = [0x05, 0x90, 0x00] ∧
    (0x61 : Nat) ∉ executeCommand 4 [0x61, 0x05, 0x90, 0x00] ∧
    getAll 4 [0x61, 0x05, 0x90, 0x00] ≠ [] := by
  refine ⟨by decide, by decide, by decide⟩

/-- C7 amended: discovery returns the empty list (not a failure) when the
payload is empty, and when the RAW reply — which includes the leading
transport byte that the scan also examines — contains no application-template
tag `0x61`; for a reply containing templates it returns one application per
template in scan order, shown here on a reply holding two complete templates
(identifier, priority and label for the first; identifier and priority for
the second). -/
theorem getAll_discovery (szRx : Int) (abtRx : List Nat) :
    (executeCommand szRx abtRx = [] → getAll szRx abtRx = []) ∧
    ((0x61 : Nat) ∉ abtRx → getAll szRx abtRx = []) ∧
    getAll 35 [0x00,
        0x61, 0x1A, 0x4F, 0x07, 0xA0, 0x01, 0x02, 0x03, 0x04, 0x05, 0x06,
        0x87, 0x01, 0x01, 0x50, 0x02, 0x41, 0x42,
        0x61, 0x0B, 0x4F, 0x07, 0xB0, 0x11, 0x12, 0x13, 0x14, 0x15, 0x16,
        0x87, 0x01, 0x02, 0x90, 0x00] =
      [⟨[0xA0, 0x01, 0x02, 0x03, 0x04, 0x05, 0x06], [0x41, 0x42], 1⟩,
       ⟨[0xB0, 0x11, 0x12, 0x13, 0x14, 0x15, 0x16], [], 2⟩] := by
  refine ⟨?_, ?_, by decide⟩
  · intro h
    unfold getAll
    rw [if_pos h]
  · intro h
    unfold getAll
    split_ifs with hp
    · rfl
    · exact outerScan_no_template abtRx h _ _

/-- C7 amended witness: the empty-payload case at a negative transport
result, and the no-template case on the raw reply `00 AA 90 00`. -/
theorem getAll_discovery_witness :
    getAll (-1) [] = [] ∧ getAll 4 [0x00, 0xAA, 0x90, 0x00] = [] := by
  have h1 := (getAll_discovery (-1) []).1 (by decide)
  have h2 := (getAll_discovery 4 [0x00, 0xAA, 0x90, 0x00]).2.1 (by decide)
  exact ⟨h1, h2⟩

/-- Embedding of the selection loop of `ApplicationHelper::selectByPriority`
(applicationhelper.cc:107-115): starting from a zero-valued application, the
first list entry whose priority equals the requested one is taken and the
loop breaks. -/
def pickByPriority : List Application → Nat → Application
  | [], _ => defaultApp
  | a :: rest, p => if a.priority = p then a else pickByPriority rest p

/-- Read of the full fixed-size 7-byte identifier array of an application
(the `memcpy` of `sizeof(app.aid)` bytes, applicationhelper.cc:127-131). -/
def aid7 (a : Application) : List Nat :=
  (a.aid ++ List.replicate 7 0).take 7

/-- Embedding of the command construction of
`ApplicationHelper::selectByPriority` (applicationhelper.cc:117-138): the
fixed header template, one length byte equal to `sizeof(app.aid)` (7), the
identifier bytes, then one zero byte left in place by the `bzero`. -/
def selectAppCommand (header : List Nat) (list : List Application) (priority : Nat) : List Nat :=
  header ++ [7] ++ aid7 (pickByPriority list priority) ++ [0]

/-- C8: the selector picks the FIRST list entry (in list order) whose
priority equals the requested priority (`List.find?` with the zero-valued
application as the no-match default), and the built select command is the
fixed header, then a length byte equal to the identifier's fixed size 7,
then the 7 identifier bytes, then a trailing zero byte. -/
theorem selectByPriority_spec (header : List Nat) (list : List Application) (p : Nat) :
    pickByPriority list p = (list.find? (fun a => a.priority == p)).getD defaultApp ∧
    selectAppCommand header list p =
      header ++ [7] ++ aid7 (pickByPriority list p) ++ [0] ∧
    (aid7 (pickByPriority list p)).length = 7 := by
  refine ⟨?_, rfl, ?_⟩
  · induction list with
    | nil => rfl
    | cons a rest ih =>
      by_cases h : a.priority = p
      · simp [pickByPriority, List.find?, h]
      · simp only [pickByPriority, List.find?, if_neg h]
        rw [ih]
        have hb : (a.priority == p) = false := by
          simp [h]
        rw [hb]
  · unfold aid7
    simp

/-- Result of the log-fetching stage of `CCInfo::extractLogEntries`
(ccinfo.cc:83-114): whether the stage succeeded (the C function returned 0),
the fetched log format, the stored raw log-entry payloads, and the trace of
issued read-record commands in order. -/
structure LogFetchResult where
  ok : Bool
  logFormat : List Nat
  entries : List (List Nat)
  reads : List (List Nat)
  deriving Repr, DecidableEq

/-- Embedding of the record-reading loop of `CCInfo::extractLogEntries`
(ccinfo.cc:101-111): for each 1-based index, byte 4 of the command (`P1`) is
set to the index and the command is executed through the transport; the
payload is stored, and an empty payload aborts the loop with failure without
issuing further reads.  `oracle` maps a command to the payload that
`executeCommand` returns for it; the `% 256` models the store of the
`size_t` counter into a `byte_t` cell. -/
def logReadLoop (oracle : List Nat → List Nat) (base : List Nat) :
    List Nat → Bool × List (List Nat) × List (List Nat)
  | [] => (true, [], [])
  | idx :: rest =>
    let cmd := base.set 4 (idx % 256)
    let res := oracle cmd
    if res = [] then (false, [res], [cmd])
    else
      let r := logReadLoop oracle base rest
      (r.1, res :: r.2.1, cmd :: r.2.2)

/-- Embedding of `CCInfo::extractLogEntries` (ccinfo.cc:83-114): first the
fixed GET DATA LOG FORMAT command is executed; an empty result aborts the
whole stage with failure, before any record read.  Otherwise byte 5 of the
read-record template (`P2`) is set once to `(logSFI << 3) | (1 << 2)` and
records `1 .. logCount` are read in order. -/
def extractLogEntries (oracle : List Nat → List Nat) (fmtCmd template : List Nat)
    (logSFI logCount : Nat) : LogFetchResult :=
  let fmt := oracle fmtCmd
  if fmt = [] then ⟨false, fmt, [], []⟩
  else
    let base := template.set 5 (((logSFI <<< 3) ||| (1 <<< 2)) % 256)
    let r := logReadLoop oracle base (List.range' 1 logCount)
    ⟨r.1, fmt, r.2.1, r.2.2⟩

/-- Helper: characterisation of the record-reading loop over an arbitrary
index list — the issued commands are those for the indices up to and
including the first failing one, the stored entries are exactly the payloads
of the issued commands, and the loop succeeds exactly when every index
yields a non-empty payload. -/
theorem logReadLoop_spec (oracle : List Nat → List Nat) (base : List Nat) :
    ∀ idxs : List Nat,
      (logReadLoop oracle base idxs).2.2 =
        (idxs.take
          ((idxs.takeWhile
            (fun idx => decide (oracle (base.set 4 (idx % 256)) ≠ []))).length + 1)).map
          (fun idx => base.set 4 (idx % 256)) ∧
      (logReadLoop oracle base idxs).2.1 = ((logReadLoop oracle base idxs).2.2).map oracle ∧
      ((logReadLoop oracle base idxs).1 = true ↔
        ∀ idx ∈ idxs, oracle (base.set 4 (idx % 256)) ≠ []) := by
  intro idxs
  induction idxs with
  | nil => exact ⟨rfl, rfl, by simp [logReadLoop]⟩
  | cons h t ih =>
    by_cases hh : oracle (base.set 4 (h % 256)) = []
    · refine ⟨?_, ?_, ?_⟩
      · simp [logReadLoop, hh]
      · simp [logReadLoop, hh]
      · simp [logReadLoop, hh]
    · refine ⟨?_, ?_, ?_⟩
      · simp only [logReadLoop, if_neg hh]
        have hp : (decide (oracle (base.set 4 (h % 256)) ≠ [])) = true := by
          simp [hh]
        simp only [List.takeWhile_cons, hp, if_true]
        simp only [List.length_cons, List.take_succ_cons, List.map_cons]
        rw [ih.1]
      · simp only [logReadLoop, if_neg hh]
        simp only [List.map_cons]
        rw [ih.2.1, ih.1]
      · simp only [logReadLoop, if_neg hh]
        rw [ih.2.2, List.forall_mem_cons]
        simp [hh]

/-- C9: the log fetch first issues the get-log-format command and fails on an
empty result (before any record read); otherwise it issues one read-record
command per index 1..logCount in order, stopping at the first empty payload,
with `P1` (byte 4) equal to the 1-based index and `P2` (byte 5) equal to
`(logSFI << 3) | 0b100`, storing every raw payload it read; it succeeds
exactly when every record read is non-empty. -/
theorem extractLogEntries_spec (oracle : List Nat → List Nat) (fmtCmd template : List Nat)
    (logSFI logCount : Nat) :
    (oracle fmtCmd = [] →
      extractLogEntries oracle fmtCmd template logSFI logCount = ⟨false, [], [], []⟩) ∧
    (oracle fmtCmd ≠ [] →
      (extractLogEntries oracle fmtCmd template logSFI logCount).logFormat = oracle fmtCmd ∧
      (extractLogEntries oracle fmtCmd template logSFI logCount).reads =
        ((List.range' 1 logCount).take
          (((List.range' 1 logCount).takeWhile (fun idx =>
            decide (oracle ((template.set 5 (((logSFI <<< 3) ||| (1 <<< 2)) % 256)).set
              4 (idx % 256)) ≠ []))).length + 1)).map
          (fun idx => (template.set 5 (((logSFI <<< 3) ||| (1 <<< 2)) % 256)).set
            4 (idx % 256)) ∧
      (extractLogEntries oracle fmtCmd template logSFI logCount).entries =
        ((extractLogEntries oracle fmtCmd template logSFI logCount).reads).map oracle ∧
      ((extractLogEntries oracle fmtCmd template logSFI logCount).ok = true ↔
        ∀ idx ∈ List.range' 1 logCount,
          oracle ((template.set 5 (((logSFI <<< 3) ||| (1 <<< 2)) % 256)).set
            4 (idx % 256)) ≠ [])) ∧
    (6 ≤ template.length → ∀ idx : Nat,
      ((template.set 5 (((logSFI <<< 3) ||| (1 <<< 2)) % 256)).set 4 (idx % 256)).getD 4 0 =
        idx % 256 ∧
      ((template.set 5 (((logSFI <<< 3) ||| (1 <<< 2)) % 256)).set 4 (idx % 256)).getD 5 0 =
        ((logSFI <<< 3) ||| (1 <<< 2)) % 256) := by
  refine ⟨?_, ?_, ?_⟩
  · intro h
    simp [extractLogEntries, h]
  · intro h
    have hl := logReadLoop_spec oracle
      (template.set 5 (((logSFI <<< 3) ||| (1 <<< 2)) % 256)) (List.range' 1 logCount)
    have he : extractLogEntries oracle fmtCmd template logSFI logCount =
        ⟨(logReadLoop oracle (template.set 5 (((logSFI <<< 3) ||| (1 <<< 2)) % 256))
            (List.range' 1 logCount)).1,
         oracle fmtCmd,
         (logReadLoop oracle (template.set 5 (((logSFI <<< 3) ||| (1 <<< 2)) % 256))
            (List.range' 1 logCount)).2.1,
         (logReadLoop oracle (template.set 5 (((logSFI <<< 3) ||| (1 <<< 2)) % 256))
            (List.range' 1 logCount)).2.2⟩ := by
      simp [extractLogEntries, h]
    rw [he]
    exact ⟨rfl, hl.1, hl.2.1, hl.2.2⟩
  · intro h6 idx
    refine ⟨?_, ?_⟩
    · rw [List.getD_eq_getElem _ 0 (by simp; omega)]
      simp [List.getElem_set]
    · rw [List.getD_eq_getElem _ 0 (by simp; omega)]
      simp [List.getElem_set]

/-- Test transport for the C9 witness: the log-format command returns one
byte, record reads 1 and 2 return one byte each, anything else fails. -/
def logOracle : List Nat → List Nat :=
  fun cmd =>
    if cmd = [0xF0] then [0xAA]
    else if cmd.getD 4 0 = 1 then [0x01]
    else if cmd.getD 4 0 = 2 then [0x02]
    else []

/-- C9 witness: a concrete two-record fetch succeeds and issues exactly the
two expected read-record commands (with `P1` 1 then 2 and `P2` 12), and a
transport whose log-format read is empty makes the whole stage fail with no
record read issued. -/
theorem extractLogEntries_spec_witness :
    (extractLogEntries logOracle [0xF0] [0, 0, 0, 0, 0, 0, 0] 1 2).ok = true ∧
    (extractLogEntries logOracle [0xF0] [0, 0, 0, 0, 0, 0, 0] 1 2).reads =
      [[0, 0, 0, 0, 1, 12, 0], [0, 0, 0, 0, 2, 12, 0]] ∧
    ((([0, 0, 0, 0, 0, 0, 0] : List Nat).set 5 (((1 <<< 3) ||| (1 <<< 2)) % 256)).set
        4 (1 % 256)).getD 4 0 = 1 % 256 ∧
    extractLogEntries (fun _ => []) [0xF0] [0, 0, 0, 0, 0, 0, 0] 1 2 = ⟨false, [], [], []⟩ := by
  have h := extractLogEntries_spec logOracle [0xF0] [0, 0, 0, 0, 0, 0, 0] 1 2
  have h2 := h.2.1 (by decide)
  have h3 := (h.2.2 (by decide) 1).1
  have h4 := (extractLogEntries_spec (fun _ => []) [0xF0] [0, 0, 0, 0, 0, 0, 0] 1 2).1 rfl
  refine ⟨h2.2.2.2.mpr (by decide), ?_, h3, h4⟩
  rw [h2.2.1]
  decide

end NFC
